import Mathlib

/-!
Verification development for the command execution subsystem of
`src/code/broken/core/__init__.py`: the argument-normalisation helper
`flatten`, the dispatcher `shell`, and the queue-buffered `StdinWrapper`.

Python values that may appear in an argument fragment are modelled by
`Atom` (scalars) and `Item` (scalars or unpackable containers); the
dispatcher is modelled as a pure function from an explicit configuration
and an oracle of the ambient system to a result, an ordered effect trace,
and the parent environment after the call.
-/

/-- A scalar Python value appearing in an argument fragment:
`None`, a string, or a number. -/
inductive Atom where
  | none_ : Atom
  | str (s : String) : Atom
  | num (n : Int) : Atom
deriving DecidableEq, Repr

/-- An argument fragment: a scalar, or an unpackable container
(list, deque, tuple, map, Generator — all modelled as `seq`). -/
inductive Item where
  | atom (a : Atom) : Item
  | seq (xs : List Item) : Item
deriving Repr

/-- The default `block=(None, "")` membership test of `flatten` (line 50/70-71):
an element is dropped when it compares equal to `None` or to the empty string.
Containers never compare equal to either, numbers neither. -/
def blockedItem : Item → Bool
  | .atom .none_ => true
  | .atom (.str s) => s == ""
  | _ => false

mutual

/-- The contribution of one unblocked element of the data stream: an
unpackable container is recursively flattened (`yield from flatten(item)`,
line 74), any other element is yielded as-is (line 76). -/
def flattenOne : Item → List Atom
  | .atom a => [a]
  | .seq ys => flatten ys

/-- Function `flatten` (lines 47-77) with the default `block` and `unpack` sets, on one
level of variadic items: each element is first checked against the block list
(line 71), then unpacked or yielded. -/
def flatten : List Item → List Atom
  | [] => []
  | x :: xs => (if blockedItem x then [] else flattenOne x) ++ flatten xs

end

/-- Python `str()` of a scalar, as applied by `tuple(map(str, flatten(args)))`
on line 124. -/
def atomStr : Atom → String
  | .none_ => "None"
  | .str s => s
  | .num n => toString n

/-- Line 124: `args = tuple(map(str, flatten(args)))`. -/
def normalizeArgs (args : List Item) : List String :=
  (flatten args).map atomStr

/-- Log severities used by the dispatcher: `log.error` (lines 122/128),
`log.skip` / `log.info` (line 131), `log.warning` (line 139),
`log.minor` (line 152). -/
inductive LogLevel where
  | error | skip | info | warning | minor
deriving DecidableEq, Repr

/-- Exceptions the dispatcher can surface.  `binaryNotFound` is the
`FileNotFoundError` raised by the explicit guard on line 128;
`osFileNotFound` is the `FileNotFoundError` raised inside the process
creation primitive when the exec of a missing binary fails; `indexError` is
the `IndexError` raised by `Popen` on an empty argument vector before any
fork; `processError` is `subprocess.CalledProcessError` from
`check_output`. -/
inductive Err where
  | invalidInvocation : Err
  | binaryNotFound : Err
  | osFileNotFound : Err
  | indexError : Err
  | processError (code : Int) (out : String) : Err
deriving DecidableEq, Repr

/-- The dispatcher's return value (`Union[None, str, Popen, CompletedProcess]`):
`noop` is the bare `None` returned on lines 135 and 145, `captured` the
decoded stdout of `check_output`, `spawned` the live `Popen` handle
(recording whether its stdin was wrapped), `completed` the
`CompletedProcess` of `subprocess.run` carrying the exit code. -/
inductive Outcome where
  | noop : Outcome
  | captured (s : String) : Outcome
  | spawned (threadedStdin : Bool) : Outcome
  | completed (code : Int) : Outcome
deriving DecidableEq, Repr

/-- Observable effects of one `shell` call, in program order: a log line at a
severity, or an attempt to create a process with a final argument vector and
a child environment. -/
inductive Effect where
  | logged (lvl : LogLevel) : Effect
  | spawnAttempt (argv : List String) (env : List (String × String)) : Effect
deriving DecidableEq, Repr

/-- Keyword configuration of one `shell` call (lines 102-111 and the
`kwargs` keys it inspects: `shell`, `cwd`, `preexec_fn`).  `shellKw` is
`kwargs.get("shell", False)`; `isWindows` is `os.name == "nt"`. -/
structure Config where
  output : Bool
  popen : Bool
  envOverlay : List (String × String)
  confirm : Bool
  threadedStdin : Bool
  skip : Bool
  shellKw : Bool
  isWindows : Bool
  hasPreexecFn : Bool
deriving Repr

/-- Oracle for the ambient system: `which` is `shutil.which` restricted to a
boolean, `userConfirms` the answer of `click.confirm`, `exitCode`/`stdout`
the behaviour of the created child process on a given final argument vector,
`parentEnv` the entries of `os.environ` at call time. -/
structure Sys where
  which : String → Bool
  userConfirms : Bool
  exitCode : List String → Int
  stdout : List String → String
  parentEnv : List (String × String)

/-- Result of one `shell` call: the returned value or raised exception, the
ordered effect trace, and the parent process environment when the call
returns (the body of `shell` never assigns to `os.environ`, it only reads it
on line 148). -/
structure ShellRes where
  result : Except Err Outcome
  effects : List Effect
  envAfter : List (String × String)

/-- Dictionary key lookup: the value bound to the first occurrence of the
key, if any. -/
def envLookup : List (String × String) → String → Option String
  | [], _ => none
  | kv :: rest, key => if key = kv.1 then some kv.2 else envLookup rest key

/-- Python dict union `os.environ | (env or {})` (line 148): keys of the
parent in their order, each carrying the overlay's value when the overlay
also binds it, followed by the overlay's new keys in overlay order. -/
def envMerge (parent overlay : List (String × String)) : List (String × String) :=
  (parent.map fun kv => (kv.1, (envLookup overlay kv.1).getD kv.2)) ++
    overlay.filter fun kv => (envLookup parent kv.1).isNone

/-- Truthiness of the object named `shell` in the guard `(not shell)` on
line 127: the name resolves to the enclosing function object, which is
always truthy — not to the `shell` keyword argument. -/
def shellGuardObjectTruthy : Bool := true

/-- Process creation (lines 154-187).  With `shell=True` the single joined
string is handed to the command interpreter, which resolves the command
itself.  Otherwise `Popen` raises `IndexError` on an empty argument vector
before any fork, and the exec of a missing binary surfaces as an OS-level
`FileNotFoundError` out of the spawn attempt.  `check_output` raises
`CalledProcessError` on a non-zero exit; `subprocess.run` returns the
completed process whatever the exit code. -/
def dispatch (cfg : Config) (sys : Sys) (argv : List String)
    (childEnv : List (String × String)) : Except Err Outcome × List Effect :=
  if !cfg.shellKw && argv.isEmpty then
    (.error .indexError, [])
  else if !cfg.shellKw && !(sys.which (argv.headD "")) then
    (.error .osFileNotFound, [.spawnAttempt argv childEnv])
  else if cfg.output then
    if sys.exitCode argv = 0 then
      (.ok (.captured (sys.stdout argv)), [.spawnAttempt argv childEnv])
    else
      (.error (.processError (sys.exitCode argv) (sys.stdout argv)),
        [.spawnAttempt argv childEnv])
  else if cfg.popen then
    (.ok (.spawned cfg.threadedStdin), [.spawnAttempt argv childEnv])
  else
    (.ok (.completed (sys.exitCode argv)), [.spawnAttempt argv childEnv])

/-- The dispatcher `shell` (lines 102-187), step by step in source order:
mutual-exclusion check of `output`/`Popen` (121-122), normalisation (124),
the binary guard (126-128) whose first conjunct `(not shell)` tests the
truthiness of the function object and short-circuits the `shutil.which`
lookup, the log line at skip or info severity (130-134), the skip return
(135), the shell-string join and warning (137-142), the confirmation gate
(144-145), the environment merge into the child's kwargs (147-148), the
Windows `preexec_fn` notice (150-152), and the mode dispatch (154-187). -/
def shell (args : List Item) (cfg : Config) (sys : Sys) : ShellRes :=
  if cfg.output && cfg.popen then
    { result := .error .invalidInvocation
      effects := [.logged .error]
      envAfter := sys.parentEnv }
  else
    let argv := normalizeArgs args
    if !shellGuardObjectTruthy && !(sys.which (argv.headD "")) then
      { result := .error .binaryNotFound
        effects := [.logged .error]
        envAfter := sys.parentEnv }
    else
      let logEff := Effect.logged (if cfg.skip then .skip else .info)
      if cfg.skip then
        { result := .ok .noop
          effects := [logEff]
          envAfter := sys.parentEnv }
      else
        let argv2 := if cfg.shellKw then [String.intercalate " " argv] else argv
        let warnEffs : List Effect := if cfg.shellKw then [.logged .warning] else []
        if cfg.confirm && !sys.userConfirms then
          { result := .ok .noop
            effects := logEff :: warnEffs
            envAfter := sys.parentEnv }
        else
          let childEnv := envMerge sys.parentEnv cfg.envOverlay
          let minorEffs : List Effect :=
            if cfg.isWindows && cfg.hasPreexecFn then [.logged .minor] else []
          let step := dispatch cfg sys argv2 childEnv
          { result := step.1
            effects := logEff :: (warnEffs ++ minorEffs ++ step.2)
            envAfter := sys.parentEnv }

/-- Mutable state of one `StdinWrapper` (lines 162-184): the pending FIFO
chunks of `_queue`, the chunks already written to the raw pipe in order,
whether the raw pipe (`_stdin`) is still open, and the `_loop` liveness
flag read by the worker. -/
structure WriterState where
  queue : List String
  pipeWritten : List String
  pipeOpen : Bool
  loop : Bool
deriving DecidableEq, Repr

/-- Capacity `Queue(maxsize=10)`, line 165. -/
def queueMaxsize : Nat := 10

namespace StdinWrapper

/-- Method `write` (lines 171-172): `self._queue.put(data)`.  The put blocks while
the queue holds `queueMaxsize` chunks and then enqueues; it has no failure
outcome and signals nothing to the producer. -/
def write (s : WriterState) (data : String) : WriterState :=
  { s with queue := s.queue ++ [data] }

/-- Whether `_queue.put` would block (the queue is at `maxsize`). -/
def putWouldBlock (s : WriterState) : Bool :=
  queueMaxsize ≤ s.queue.length

end StdinWrapper

/-- Events observable during a `close` call, in order: a chunk written to the
raw pipe by the worker (line 175) and acknowledged (line 176), the raw pipe
closed (line 179), the `_loop` flag cleared (line 180), one poll observing
the owned process still running, and a poll observing it exited (line 181). -/
inductive WEvent where
  | wrote (c : String) : WEvent
  | pipeClosed : WEvent
  | loopCleared : WEvent
  | polledRunning : WEvent
  | observedExit : WEvent
deriving DecidableEq, Repr

/-- Call `self._queue.join()` (line 178): returns once every enqueued chunk has
been taken by the worker's blocking FIFO `get` (line 175), written to the
raw pipe, and acknowledged with `task_done` (line 176).  Modelled as the
worker consuming the pending chunks front-first, one write event each. -/
def queueJoinAux : List String → WriterState → List WEvent × WriterState
  | [], s => ([], s)
  | c :: rest, s =>
    let step := queueJoinAux rest { s with queue := rest, pipeWritten := s.pipeWritten ++ [c] }
    (WEvent.wrote c :: step.1, step.2)

/-- Function `queueJoin` consumes exactly the pending chunks of the state. -/
def queueJoin (s : WriterState) : List WEvent × WriterState :=
  queueJoinAux s.queue s

/-- The poll loop `while self._process.poll() is None: time.sleep(0.01)`
(lines 181-182), for a process that still reports running on the first
`n` polls and exited on the next one. -/
def pollEvents : Nat → List WEvent
  | 0 => [WEvent.observedExit]
  | n + 1 => WEvent.polledRunning :: pollEvents n

namespace StdinWrapper

/-- Method `close` (lines 177-182) in source order: wait for the queue to drain
(`join`), close the raw pipe, clear `_loop`, then poll the owned process
until it reports exited.  `exitAfter` is the number of polls on which the
process still reports running before it is observed exited. -/
def close (s : WriterState) (exitAfter : Nat) : List WEvent × WriterState :=
  let drained := queueJoin s
  let closed := { drained.2 with pipeOpen := false }
  let stopped := { closed with loop := false }
  (drained.1 ++ [WEvent.pipeClosed] ++ [WEvent.loopCleared] ++ pollEvents exitAfter,
    stopped)

end StdinWrapper

/-- Concrete configuration with every flag clear: Run mode (neither `output`
nor `Popen`), no overlay, no confirmation, no skip, POSIX host. -/
def baseCfg : Config :=
  { output := false, popen := false, envOverlay := [], confirm := false
    threadedStdin := false, skip := false, shellKw := false
    isWindows := false, hasPreexecFn := false }

/-- Concrete system oracle on which every binary resolves on the search path
and every child exits 0. -/
def sysAllBinaries : Sys :=
  { which := fun _ => true, userConfirms := true, exitCode := fun _ => 0
    stdout := fun _ => "ok", parentEnv := [("PATH", "/usr/bin")] }

/-- Concrete system oracle on which no binary resolves on the search path. -/
def sysNoBinaries : Sys :=
  { which := fun _ => false, userConfirms := true, exitCode := fun _ => 0
    stdout := fun _ => "", parentEnv := [] }

/-- Concrete configuration overlaying `B` and `C` in Run mode. -/
def withOverlayCfg : Config :=
  { baseCfg with envOverlay := [("B", "9"), ("C", "3")] }

/-- Concrete system oracle whose ambient environment binds `A` and `B`. -/
def envSys : Sys :=
  { sysAllBinaries with parentEnv := [("A", "1"), ("B", "2")] }

/-- Concrete configuration requesting both Capture and Spawn. -/
def captureSpawnCfg : Config :=
  { baseCfg with output := true, popen := true }

/-- Concrete configuration with skip set together with both Capture and
Spawn. -/
def skipBothModesCfg : Config :=
  { baseCfg with output := true, popen := true, skip := true }

/-- Concrete configuration with only skip set. -/
def skipCfg : Config := { baseCfg with skip := true }

/-- Concrete configuration requesting confirmation in Run mode. -/
def confirmCfg : Config := { baseCfg with confirm := true }

/-- Concrete system oracle on which the user declines the confirmation. -/
def sysDeclines : Sys := { sysAllBinaries with userConfirms := false }

/-- The writer state after a completed `close` of a writer that had one
pending chunk. -/
def closedWriter : WriterState :=
  (StdinWrapper.close ⟨["A"], [], true, true⟩ 0).2

-- ------------------------------------------------------------------------
-- Helper lemmas
-- ------------------------------------------------------------------------

theorem blockedItem_str (s : String) : blockedItem (.atom (.str s)) = false ↔ s ≠ "" := by
  simp [blockedItem]

theorem flatten_cons (x : Item) (xs : List Item) :
    flatten (x :: xs) = (if blockedItem x then [] else flattenOne x) ++ flatten xs := rfl

/-- Flattening a flat list of scalars filters out the blocked ones. -/
theorem flatten_map_atom (xs : List Atom) :
    flatten (xs.map Item.atom) = xs.filter (fun a => !blockedItem (Item.atom a)) := by
  induction xs with
  | nil => rfl
  | cons a xs ih =>
    by_cases h : blockedItem (Item.atom a) <;>
      simp [flatten_cons, flattenOne, h, List.filter_cons, ih]

mutual

/-- No blocked scalar survives the contribution of one unblocked element. -/
theorem flattenOne_no_blocked (x : Item) (hx : blockedItem x = false) :
    ∀ a ∈ flattenOne x, a ≠ Atom.none_ ∧ a ≠ Atom.str "" := by
  match x with
  | .atom .none_ => simp [blockedItem] at hx
  | .atom (.str s) =>
    intro a ha
    simp [flattenOne] at ha
    subst ha
    have hs : s ≠ "" := (blockedItem_str s).mp hx
    simp [hs]
  | .atom (.num n) =>
    intro a ha
    simp [flattenOne] at ha
    subst ha
    simp
  | .seq ys =>
    intro a ha
    exact flatten_no_blocked ys a ha

/-- No blocked scalar survives flattening, at any nesting depth. -/
theorem flatten_no_blocked (l : List Item) :
    ∀ a ∈ flatten l, a ≠ Atom.none_ ∧ a ≠ Atom.str "" := by
  match l with
  | [] => simp [flatten]
  | x :: xs =>
    intro a ha
    rw [flatten_cons] at ha
    rcases List.mem_append.mp ha with h | h
    · by_cases hx : blockedItem x
      · simp [hx] at h
      · exact flattenOne_no_blocked x (by simpa using hx) a (by simpa [hx] using h)
    · exact flatten_no_blocked xs a h

end

-- ------------------------------------------------------------------------
-- C7 / C8: normalization
-- ------------------------------------------------------------------------

/-- C7: for every input sequence with `None`/empty-string elements interleaved
with valid tokens, the flattened output contains no `None` and no empty-string
element and preserves the relative order of the remaining elements (it is
exactly the ordered subsequence of unblocked elements); moreover no `None` or
empty-string scalar survives flattening at any nesting depth. -/
theorem flatten_drops_blocked_preserves_order (xs : List Atom) (items : List Item) :
    flatten (xs.map Item.atom) = xs.filter (fun a => !blockedItem (Item.atom a)) ∧
    (∀ a ∈ flatten items, a ≠ Atom.none_ ∧ a ≠ Atom.str "") :=
  ⟨flatten_map_atom xs, flatten_no_blocked items⟩

/-- C7 witness: a flat sequence interleaving `None` and `""` with valid
tokens flattens to the valid tokens in order, and a nested occurrence of
`None` is dropped as well. -/
theorem flatten_drops_blocked_preserves_order_witness :
    flatten ([Atom.str "a", Atom.none_, Atom.str "", Atom.str "b"].map Item.atom)
      = [Atom.str "a", Atom.str "b"] ∧
    (Atom.str "x" ≠ Atom.none_ ∧ Atom.str "x" ≠ Atom.str "") := by
  have h := flatten_drops_blocked_preserves_order
    [Atom.str "a", Atom.none_, Atom.str "", Atom.str "b"]
    [Item.seq [Item.atom Atom.none_, Item.atom (Atom.str "x")]]
  refine ⟨?_, h.2 (Atom.str "x") (by decide)⟩
  rw [h.1]
  decide

/-- C8 counterexample: a flat sequence of strings containing the empty string
is not left unchanged — flatten drops the empty string. -/
theorem flatten_flat_strings_changed :
    flatten [Item.atom (Atom.str "")] = [] ∧
    ([] : List Atom) ≠ [Atom.str ""] := by
  constructor
  · rfl
  · decide

/-- C8 amended: flattening an already-flat sequence of non-empty strings
yields the same sequence unchanged. -/
theorem flatten_flat_nonempty_strings_id (xs : List String) (h : ∀ s ∈ xs, s ≠ "") :
    flatten (xs.map fun s => Item.atom (Atom.str s)) = xs.map Atom.str := by
  induction xs with
  | nil => rfl
  | cons s xs ih =>
    have hs : s ≠ "" := h s (List.mem_cons_self s xs)
    have hb : blockedItem (Item.atom (Atom.str s)) = false := (blockedItem_str s).mpr hs
    simp [flatten_cons, flattenOne, hb,
      ih (fun t ht => h t (List.mem_cons_of_mem s ht))]

/-- C8 witness: a flat sequence of non-empty strings passes through
unchanged. -/
theorem flatten_flat_nonempty_strings_id_witness :
    flatten (["echo", "hi"].map fun s => Item.atom (Atom.str s))
      = ["echo", "hi"].map Atom.str :=
  flatten_flat_nonempty_strings_id ["echo", "hi"] (by decide)

-- ------------------------------------------------------------------------
-- Environment merge lemmas
-- ------------------------------------------------------------------------

theorem envLookup_append_of_some {l1 l2 : List (String × String)} {k v : String}
    (h : envLookup l1 k = some v) : envLookup (l1 ++ l2) k = some v := by
  induction l1 with
  | nil => simp [envLookup] at h
  | cons kv l1 ih =>
    by_cases hk : k = kv.1 <;> (simp [envLookup, hk] at h ⊢; simp_all [envLookup])

theorem envLookup_append_of_none {l1 : List (String × String)} {k : String}
    (h : envLookup l1 k = none) (l2 : List (String × String)) :
    envLookup (l1 ++ l2) k = envLookup l2 k := by
  induction l1 with
  | nil => rfl
  | cons kv l1 ih =>
    by_cases hk : k = kv.1 <;> (simp [envLookup, hk] at h ⊢; try simp_all [envLookup])

theorem envLookup_map_override (p o : List (String × String)) (k : String) :
    envLookup (p.map fun kv => (kv.1, (envLookup o kv.1).getD kv.2)) k
      = (envLookup p k).map fun v => (envLookup o k).getD v := by
  induction p with
  | nil => rfl
  | cons kv p ih =>
    by_cases hk : k = kv.1 <;> simp [envLookup, hk, ih]

theorem envLookup_filter_blocked (p o : List (String × String)) (k : String)
    (hp : envLookup p k = none) :
    envLookup (o.filter fun kv => (envLookup p kv.1).isNone) k = envLookup o k := by
  induction o with
  | nil => rfl
  | cons kv o ih =>
    by_cases hk : k = kv.1
    · subst hk
      simp [List.filter_cons, hp, envLookup]
    · cases hpred : (envLookup p kv.1).isNone <;>
        simp [List.filter_cons, hpred, envLookup, hk, ih]

/-- Overlay wins on key collisions: a key bound by the overlay keeps the
overlay's value in the merged environment. -/
theorem envMerge_overlay_wins (p o : List (String × String)) (k v : String)
    (h : envLookup o k = some v) : envLookup (envMerge p o) k = some v := by
  unfold envMerge
  cases hp : envLookup p k with
  | some w =>
    apply envLookup_append_of_some
    rw [envLookup_map_override, hp]
    simp [h]
  | none =>
    rw [envLookup_append_of_none (by rw [envLookup_map_override, hp]; rfl)]
    rw [envLookup_filter_blocked p o k hp]
    exact h

/-- Keys the overlay does not bind keep the parent's value in the merged
environment. -/
theorem envMerge_parent_kept (p o : List (String × String)) (k : String)
    (h : envLookup o k = none) : envLookup (envMerge p o) k = envLookup p k := by
  unfold envMerge
  cases hp : envLookup p k with
  | some w =>
    apply envLookup_append_of_some
    rw [envLookup_map_override, hp]
    simp [h]
  | none =>
    rw [envLookup_append_of_none (by rw [envLookup_map_override, hp]; rfl)]
    rw [envLookup_filter_blocked p o k hp]
    exact h

-- ------------------------------------------------------------------------
-- Dispatcher structural lemmas
-- ------------------------------------------------------------------------

/-- No branch of `shell` writes to the parent environment. -/
theorem shell_envAfter (args : List Item) (cfg : Config) (sys : Sys) :
    (shell args cfg sys).envAfter = sys.parentEnv := by
  unfold shell
  repeat' split
  all_goals rfl

/-- Every spawn attempt of `dispatch` carries exactly the child environment
it was handed. -/
theorem dispatch_spawn_env (cfg : Config) (sys : Sys) (argv : List String)
    (childEnv : List (String × String)) :
    ∀ a e, Effect.spawnAttempt a e ∈ (dispatch cfg sys argv childEnv).2 → e = childEnv := by
  unfold dispatch
  intro a e h
  repeat' split at h
  all_goals simp_all

/-- Every spawn attempt of `shell` carries the merged environment. -/
theorem shell_spawn_env (args : List Item) (cfg : Config) (sys : Sys) :
    ∀ a e, Effect.spawnAttempt a e ∈ (shell args cfg sys).effects →
      e = envMerge sys.parentEnv cfg.envOverlay := by
  intro a e h
  unfold shell at h
  repeat' split at h
  all_goals try rw [if_neg (by simp [shellGuardObjectTruthy])] at h
  all_goals simp at h
  all_goals exact dispatch_spawn_env _ _ _ _ a e h

/-- With `skip` set (and the mutual-exclusion check passed) `shell` returns
the bare no-op outcome after one log line at skip severity. -/
theorem shell_skip_spec (args : List Item) (cfg : Config) (sys : Sys)
    (hmode : (cfg.output && cfg.popen) = false) (hskip : cfg.skip = true) :
    shell args cfg sys =
      { result := .ok .noop, effects := [.logged .skip], envAfter := sys.parentEnv } := by
  unfold shell
  rw [if_neg (by simp [hmode]), if_neg (by simp [shellGuardObjectTruthy])]
  simp [hskip]

/-- With confirmation requested and declined (and the earlier gates passed)
`shell` returns the bare no-op outcome without touching a process. -/
theorem shell_declined_spec (args : List Item) (cfg : Config) (sys : Sys)
    (hmode : (cfg.output && cfg.popen) = false) (hskip : cfg.skip = false)
    (hconf : cfg.confirm = true) (hans : sys.userConfirms = false) :
    shell args cfg sys =
      { result := .ok .noop
        effects := .logged .info ::
          (if cfg.shellKw then [Effect.logged .warning] else [])
        envAfter := sys.parentEnv } := by
  unfold shell
  rw [if_neg (by simp [hmode]), if_neg (by simp [shellGuardObjectTruthy])]
  simp [hskip, hconf, hans]

-- ------------------------------------------------------------------------
-- C5 / C6: environment isolation, mutual exclusion
-- ------------------------------------------------------------------------

/-- C5: for every call, the merged environment — the parent environment with
the overlay winning on key collisions — is what every spawn attempt passes
to the child, and the parent's ambient environment after the call is
identical to what it was before. -/
theorem shell_env_overlay_isolated (args : List Item) (cfg : Config) (sys : Sys) :
    (shell args cfg sys).envAfter = sys.parentEnv ∧
    (∀ a e, Effect.spawnAttempt a e ∈ (shell args cfg sys).effects →
      e = envMerge sys.parentEnv cfg.envOverlay) ∧
    (∀ k v, envLookup cfg.envOverlay k = some v →
      envLookup (envMerge sys.parentEnv cfg.envOverlay) k = some v) ∧
    (∀ k, envLookup cfg.envOverlay k = none →
      envLookup (envMerge sys.parentEnv cfg.envOverlay) k = envLookup sys.parentEnv k) :=
  ⟨shell_envAfter args cfg sys, shell_spawn_env args cfg sys,
    fun k v h => envMerge_overlay_wins sys.parentEnv cfg.envOverlay k v h,
    fun k h => envMerge_parent_kept sys.parentEnv cfg.envOverlay k h⟩



/-- C5 witness: with parent `{A:1, B:2}` and overlay `{B:9, C:3}`, the parent
environment is unchanged after the call, the overlay wins on `B`, and the
parent value survives on `A`. -/
theorem shell_env_overlay_isolated_witness :
    (shell [Item.atom (Atom.str "echo")] withOverlayCfg envSys).envAfter
      = [("A", "1"), ("B", "2")] ∧
    envLookup (envMerge [("A", "1"), ("B", "2")] [("B", "9"), ("C", "3")]) "B" = some "9" ∧
    envLookup (envMerge [("A", "1"), ("B", "2")] [("B", "9"), ("C", "3")]) "A" = some "1" := by
  have h := shell_env_overlay_isolated [Item.atom (Atom.str "echo")] withOverlayCfg envSys
  exact ⟨h.1, h.2.2.1 "B" "9" rfl, (h.2.2.2 "A" rfl).trans rfl⟩

/-- C6: requesting Capture output and Spawn together always raises
InvalidInvocation, whatever the other fields, and no process creation is
attempted. -/
theorem capture_and_spawn_invalid (args : List Item) (cfg : Config) (sys : Sys)
    (hout : cfg.output = true) (hpop : cfg.popen = true) :
    (shell args cfg sys).result = Except.error Err.invalidInvocation ∧
    ∀ a e, Effect.spawnAttempt a e ∉ (shell args cfg sys).effects := by
  unfold shell
  simp [hout, hpop]


/-- C6 witness: the concrete both-modes call raises InvalidInvocation. -/
theorem capture_and_spawn_invalid_witness :
    (shell [Item.atom (Atom.str "echo")] captureSpawnCfg sysAllBinaries).result
      = Except.error Err.invalidInvocation :=
  (capture_and_spawn_invalid [Item.atom (Atom.str "echo")] captureSpawnCfg
    sysAllBinaries rfl rfl).1

-- ------------------------------------------------------------------------
-- C9 / C10: skip short-circuit, no-op outcomes
-- ------------------------------------------------------------------------


/-- C9 counterexample: with `skip` set but Capture and Spawn both requested,
the call raises InvalidInvocation instead of returning the no-op outcome —
`skip` does not hold "regardless of all other fields". -/
theorem skip_with_both_modes_raises :
    (shell [Item.atom (Atom.str "echo")] skipBothModesCfg sysAllBinaries).result
      = Except.error Err.invalidInvocation ∧
    Except.error Err.invalidInvocation ≠ (Except.ok Outcome.noop : Except Err Outcome) := by
  exact ⟨rfl, fun h => Except.noConfusion h⟩

/-- C9 amended: with `skip` set and not both Capture and Spawn requested, no
process-creation primitive is invoked, the call is logged at the skip level,
and it returns the no-op outcome. -/
theorem skip_short_circuit (args : List Item) (cfg : Config) (sys : Sys)
    (hskip : cfg.skip = true) (hmode : ¬(cfg.output = true ∧ cfg.popen = true)) :
    (shell args cfg sys).result = Except.ok Outcome.noop ∧
    (shell args cfg sys).effects = [Effect.logged LogLevel.skip] ∧
    ∀ a e, Effect.spawnAttempt a e ∉ (shell args cfg sys).effects := by
  have hm : (cfg.output && cfg.popen) = false := by
    cases ho : cfg.output <;> cases hp : cfg.popen <;> simp_all
  rw [shell_skip_spec args cfg sys hm hskip]
  simp


/-- C9 witness: the concrete skipped Run-mode call returns the no-op outcome
with a single skip-level log line. -/
theorem skip_short_circuit_witness :
    (shell [Item.atom (Atom.str "echo")] skipCfg sysAllBinaries).result
      = Except.ok Outcome.noop ∧
    (shell [Item.atom (Atom.str "echo")] skipCfg sysAllBinaries).effects
      = [Effect.logged LogLevel.skip] := by
  have h := skip_short_circuit [Item.atom (Atom.str "echo")] skipCfg sysAllBinaries
    rfl (by simp [skipCfg, baseCfg])
  exact ⟨h.1, h.2.1⟩

/-- C10: the no-op outcome of a skipped call and the no-op outcome of a
declined confirmation are the identical bare value, and both differ from
every success outcome (captured text, live handle, completed result). -/
theorem noop_outcomes_identical (args args' : List Item) (cfg cfg' : Config)
    (sys sys' : Sys)
    (hskip : cfg.skip = true) (hmode : ¬(cfg.output = true ∧ cfg.popen = true))
    (hconf : cfg'.confirm = true) (hans : sys'.userConfirms = false)
    (hskip' : cfg'.skip = false) (hmode' : ¬(cfg'.output = true ∧ cfg'.popen = true)) :
    (shell args cfg sys).result = (shell args' cfg' sys').result ∧
    (shell args cfg sys).result = Except.ok Outcome.noop ∧
    (∀ s, Outcome.captured s ≠ Outcome.noop) ∧
    (∀ t, Outcome.spawned t ≠ Outcome.noop) ∧
    (∀ c, Outcome.completed c ≠ Outcome.noop) := by
  have hm : (cfg.output && cfg.popen) = false := by
    cases ho : cfg.output <;> cases hp : cfg.popen <;> simp_all
  have hm' : (cfg'.output && cfg'.popen) = false := by
    cases ho : cfg'.output <;> cases hp : cfg'.popen <;> simp_all
  rw [shell_skip_spec args cfg sys hm hskip,
    shell_declined_spec args' cfg' sys' hm' hskip' hconf hans]
  refine ⟨rfl, rfl, ?_, ?_, ?_⟩ <;> intro x h <;> exact Outcome.noConfusion h



/-- C10 witness: a concrete skipped call and a concrete declined call return
the identical bare no-op value, which differs from a captured-output
success. -/
theorem noop_outcomes_identical_witness :
    (shell [Item.atom (Atom.str "echo")] skipCfg sysAllBinaries).result
      = (shell [Item.atom (Atom.str "ls")] confirmCfg sysDeclines).result ∧
    Outcome.captured "hi" ≠ Outcome.noop := by
  have h := noop_outcomes_identical [Item.atom (Atom.str "echo")]
    [Item.atom (Atom.str "ls")] skipCfg confirmCfg sysAllBinaries sysDeclines
    rfl (by simp [skipCfg, baseCfg]) rfl rfl rfl (by simp [confirmCfg, baseCfg])
  exact ⟨h.1, h.2.2.1 "hi"⟩

-- ------------------------------------------------------------------------
-- C4: empty argument vector
-- ------------------------------------------------------------------------

/-- C4 counterexample: fragments normalising to the empty vector do not raise
InvalidInvocation — the concrete Run-mode call fails with IndexError inside
process creation instead. -/
theorem empty_vector_not_invalid_invocation :
    (shell [Item.atom Atom.none_] baseCfg sysAllBinaries).result
      = Except.error Err.indexError ∧
    Err.indexError ≠ Err.invalidInvocation := by
  exact ⟨rfl, by decide⟩

/-- C4 amended: an invocation whose fragments normalise to the empty
sequence, with shell-string mode unset and not short-circuited by the
mutual-exclusion check, skip, or a declined confirmation, fails with
IndexError at process creation — before any process is touched — rather
than with InvalidInvocation. -/
theorem empty_vector_index_error (args : List Item) (cfg : Config) (sys : Sys)
    (hargs : normalizeArgs args = [])
    (hshell : cfg.shellKw = false)
    (hmode : (cfg.output && cfg.popen) = false)
    (hskip : cfg.skip = false)
    (hconf : (cfg.confirm && !sys.userConfirms) = false) :
    (shell args cfg sys).result = Except.error Err.indexError ∧
    ∀ a e, Effect.spawnAttempt a e ∉ (shell args cfg sys).effects := by
  unfold shell
  rw [if_neg (by simp [hmode]), if_neg (by simp [shellGuardObjectTruthy])]
  simp only [hskip, hconf, hshell, hargs, if_false, Bool.false_eq_true]
  simp [dispatch]
  split <;> simp

/-- C4 witness: the concrete empty-normalisation Run-mode call fails with
IndexError and attempts no spawn. -/
theorem empty_vector_index_error_witness :
    (shell [Item.atom Atom.none_, Item.seq []] baseCfg sysAllBinaries).result
      = Except.error Err.indexError := by
  exact (empty_vector_index_error [Item.atom Atom.none_, Item.seq []] baseCfg
    sysAllBinaries rfl rfl rfl rfl rfl).1

-- ------------------------------------------------------------------------
-- C1: binary resolution
-- ------------------------------------------------------------------------

/-- C1, behaviour at the failing input: with no binary resolvable on the
search path, the Run-mode call on `nonexistent_binary_xyz` does not raise
the early named BinaryNotFound of line 128 — the guard's first conjunct
`(not shell)` tests the truthiness of the enclosing function object, which
is always truthy, so the guard never fires.  The call proceeds to a spawn
attempt and fails there with the late OS-level FileNotFoundError. -/
theorem nonexistent_binary_fails_at_spawn :
    (shell [Item.atom (Atom.str "nonexistent_binary_xyz")] baseCfg sysNoBinaries).result
      = Except.error Err.osFileNotFound ∧
    Err.osFileNotFound ≠ Err.binaryNotFound ∧
    Effect.spawnAttempt ["nonexistent_binary_xyz"] []
      ∈ (shell [Item.atom (Atom.str "nonexistent_binary_xyz")] baseCfg sysNoBinaries).effects := by
  refine ⟨rfl, by decide, ?_⟩
  decide

-- ------------------------------------------------------------------------
-- Writer lemmas
-- ------------------------------------------------------------------------

theorem queueJoinAux_trace (q : List String) (s : WriterState) :
    (queueJoinAux q s).1 = q.map WEvent.wrote := by
  induction q generalizing s with
  | nil => rfl
  | cons c rest ih => simp [queueJoinAux, ih]

theorem queueJoinAux_written (q : List String) (s : WriterState) :
    (queueJoinAux q s).2.pipeWritten = s.pipeWritten ++ q := by
  induction q generalizing s with
  | nil => simp [queueJoinAux]
  | cons c rest ih => simp [queueJoinAux, ih]

theorem queueJoinAux_queue (q : List String) (s : WriterState) :
    (queueJoinAux q s).2.queue = (if q = [] then s.queue else []) := by
  induction q generalizing s with
  | nil => simp [queueJoinAux]
  | cons c rest ih =>
    simp only [queueJoinAux, ih]
    cases rest <;> simp

theorem pollEvents_ne_nil (n : Nat) : pollEvents n ≠ [] := by
  cases n <;> simp [pollEvents]

theorem pollEvents_getLast (n : Nat) :
    (pollEvents n).getLast? = some WEvent.observedExit := by
  induction n with
  | zero => rfl
  | succ n ih =>
    cases hn : pollEvents n with
    | nil => exact absurd hn (pollEvents_ne_nil n)
    | cons a l =>
      rw [pollEvents, hn]
      rw [hn] at ih
      simpa [List.getLast?_cons_cons] using ih

theorem pollEvents_mem (n : Nat) :
    ∀ e ∈ pollEvents n, e = WEvent.polledRunning ∨ e = WEvent.observedExit := by
  induction n with
  | zero => simp [pollEvents]
  | succ n ih =>
    intro e he
    rcases (by simpa [pollEvents] using he : e = WEvent.polledRunning ∨ e ∈ pollEvents n) with
      h | h
    · exact Or.inl h
    · exact ih e h

theorem getLast?_append_right_ne_nil {α : Type} (l1 l2 : List α) (h : l2 ≠ []) :
    (l1 ++ l2).getLast? = l2.getLast? := by
  induction l1 with
  | nil => rfl
  | cons a l1 ih =>
    cases hl : l1 ++ l2 with
    | nil => exact absurd (List.append_eq_nil.mp hl).2 h
    | cons b t =>
      show (a :: (l1 ++ l2)).getLast? = l2.getLast?
      rw [hl, List.getLast?_cons_cons, ← hl]
      exact ih

/-- The trace of `close` in full: the pending chunks written in FIFO order,
then the pipe-close, then the loop-clear, then the polls. -/
theorem close_trace (s : WriterState) (n : Nat) :
    (StdinWrapper.close s n).1
      = s.queue.map WEvent.wrote
        ++ WEvent.pipeClosed :: WEvent.loopCleared :: pollEvents n := by
  unfold StdinWrapper.close queueJoin
  simp [queueJoinAux_trace]

theorem close_state (s : WriterState) (n : Nat) :
    (StdinWrapper.close s n).2.pipeWritten = s.pipeWritten ++ s.queue ∧
    (StdinWrapper.close s n).2.queue = [] ∧
    (StdinWrapper.close s n).2.pipeOpen = false ∧
    (StdinWrapper.close s n).2.loop = false := by
  unfold StdinWrapper.close queueJoin
  refine ⟨?_, ?_, rfl, rfl⟩
  · simpa using queueJoinAux_written s.queue s
  · have h := queueJoinAux_queue s.queue s
    cases hq : s.queue <;> simp_all

theorem close_trace_wrote_lt (s : WriterState) (n : Nat) (i : Nat) (c : String)
    (h : (StdinWrapper.close s n).1.get? i = some (WEvent.wrote c)) :
    i < s.queue.length := by
  have hlen : (s.queue.map WEvent.wrote).length = s.queue.length :=
    List.length_map s.queue WEvent.wrote
  rw [close_trace] at h
  by_contra hge
  push_neg at hge
  rw [List.get?_append_right (by omega)] at h
  rcases hi : i - (s.queue.map WEvent.wrote).length with _ | _ | m <;>
    rw [hi] at h
  · exact WEvent.noConfusion (Option.some.inj h)
  · exact WEvent.noConfusion (Option.some.inj h)
  · have hmem := List.get?_mem (show (pollEvents n).get? m = some (WEvent.wrote c) from h)
    rcases pollEvents_mem n _ hmem with he | he <;> exact WEvent.noConfusion he

theorem close_trace_pipeClosed_eq (s : WriterState) (n : Nat) (j : Nat)
    (h : (StdinWrapper.close s n).1.get? j = some WEvent.pipeClosed) :
    j = s.queue.length := by
  have hlen : (s.queue.map WEvent.wrote).length = s.queue.length :=
    List.length_map s.queue WEvent.wrote
  rw [close_trace] at h
  rcases lt_or_ge j (s.queue.map WEvent.wrote).length with hj | hj
  · rw [List.get?_append hj] at h
    have hmem := List.get?_mem h
    rcases List.mem_map.mp hmem with ⟨c, _, hc⟩
    exact absurd hc.symm (by intro hc2; exact WEvent.noConfusion hc2)
  · rw [List.get?_append_right hj] at h
    rcases hi : j - (s.queue.map WEvent.wrote).length with _ | _ | m <;>
      rw [hi] at h
    · omega
    · exact absurd (Option.some.inj h) (by intro hc; exact WEvent.noConfusion hc)
    · have hmem := List.get?_mem (show (pollEvents n).get? m = some WEvent.pipeClosed from h)
      rcases pollEvents_mem n _ hmem with he | he <;> exact WEvent.noConfusion he

theorem close_trace_loopCleared_eq (s : WriterState) (n : Nat) (k : Nat)
    (h : (StdinWrapper.close s n).1.get? k = some WEvent.loopCleared) :
    k = s.queue.length + 1 := by
  have hlen : (s.queue.map WEvent.wrote).length = s.queue.length :=
    List.length_map s.queue WEvent.wrote
  rw [close_trace] at h
  rcases lt_or_ge k (s.queue.map WEvent.wrote).length with hk | hk
  · rw [List.get?_append hk] at h
    have hmem := List.get?_mem h
    rcases List.mem_map.mp hmem with ⟨c, _, hc⟩
    exact absurd hc.symm (by intro hc2; exact WEvent.noConfusion hc2)
  · rw [List.get?_append_right hk] at h
    rcases hi : k - (s.queue.map WEvent.wrote).length with _ | _ | m <;>
      rw [hi] at h
    · exact absurd (Option.some.inj h) (by intro hc; exact WEvent.noConfusion hc)
    · omega
    · have hmem := List.get?_mem (show (pollEvents n).get? m = some WEvent.loopCleared from h)
      rcases pollEvents_mem n _ hmem with he | he <;> exact WEvent.noConfusion he

-- ------------------------------------------------------------------------
-- C2 / C3: graceful close, write after close
-- ------------------------------------------------------------------------

/-- C2: `close` on a writer with K enqueued chunks first waits until all K
chunks have been written to the raw pipe in order and acknowledged (every
write event precedes the pipe-close event, and the final pipe content is the
previous content followed by exactly the K pending chunks), then closes the
raw pipe, then clears the liveness flag (the pipe-close event precedes the
loop-clear event, and both flags are down in the final state), and returns
only after the owned process has been observed to have exited (the last
event of the trace is the exit observation). -/
theorem close_drains_closes_clears_then_waits (s : WriterState) (n : Nat) :
    (StdinWrapper.close s n).2.pipeWritten = s.pipeWritten ++ s.queue ∧
    (StdinWrapper.close s n).2.queue = [] ∧
    (StdinWrapper.close s n).2.pipeOpen = false ∧
    (StdinWrapper.close s n).2.loop = false ∧
    (∀ i c j, (StdinWrapper.close s n).1.get? i = some (WEvent.wrote c) →
      (StdinWrapper.close s n).1.get? j = some WEvent.pipeClosed → i < j) ∧
    (∀ j k, (StdinWrapper.close s n).1.get? j = some WEvent.pipeClosed →
      (StdinWrapper.close s n).1.get? k = some WEvent.loopCleared → j < k) ∧
    (StdinWrapper.close s n).1.getLast? = some WEvent.observedExit := by
  obtain ⟨h1, h2, h3, h4⟩ := close_state s n
  refine ⟨h1, h2, h3, h4, ?_, ?_, ?_⟩
  · intro i c j hi hj
    have := close_trace_wrote_lt s n i c hi
    have := close_trace_pipeClosed_eq s n j hj
    omega
  · intro j k hj hk
    have := close_trace_pipeClosed_eq s n j hj
    have := close_trace_loopCleared_eq s n k hk
    omega
  · rw [close_trace]
    rw [getLast?_append_right_ne_nil _ _ (by simp)]
    show (WEvent.loopCleared :: pollEvents n).getLast? = some WEvent.observedExit
    cases hn : pollEvents n with
    | nil => exact absurd hn (pollEvents_ne_nil n)
    | cons a l =>
      rw [List.getLast?_cons_cons, ← hn]
      exact pollEvents_getLast n

/-- C2 witness: closing a writer with the two pending chunks A, B writes
both to the pipe in order, the first write event precedes the pipe-close
event which precedes the loop-clear event, and the trace ends with the exit
observation. -/
theorem close_drains_closes_clears_then_waits_witness :
    (StdinWrapper.close ⟨["A", "B"], [], true, true⟩ 1).2.pipeWritten = ["A", "B"] ∧
    (0 : Nat) < 2 ∧ (2 : Nat) < 3 ∧
    (StdinWrapper.close ⟨["A", "B"], [], true, true⟩ 1).1.getLast?
      = some WEvent.observedExit := by
  have h := close_drains_closes_clears_then_waits ⟨["A", "B"], [], true, true⟩ 1
  refine ⟨by simpa using h.1, ?_, ?_, h.2.2.2.2.2.2⟩
  · exact h.2.2.2.2.1 0 "A" 2 (by decide) (by decide)
  · exact h.2.2.2.2.2.1 2 3 (by decide) (by decide)


/-- C3, behaviour at the failing input: a `write` issued after `close` has
completed is not rejected — `put` does not block (the drained queue is
empty) and enqueues the chunk, and `write` returns to the producer with no
error channel at all, while the raw pipe is already closed and the worker
liveness flag already cleared, so the chunk can never be written: it is
silently lost instead of failing fast. -/
theorem write_after_close_accepted :
    StdinWrapper.putWouldBlock closedWriter = false ∧
    (StdinWrapper.write closedWriter "late").queue = ["late"] ∧
    (StdinWrapper.write closedWriter "late").pipeOpen = false ∧
    (StdinWrapper.write closedWriter "late").loop = false := by
  decide
